import Mathlib

/-!
Verification of the asynchronous job-tracking client in the SAA repository.

The definitions below are a shallow embedding of the `ESIReceivableAgent`
component: the `JobInfo` record, the single-job poll helper `pollJobStatus`,
the per-tick reconciliation loop of the polling effect (`pollLoop` / `tick`),
the initial partition `loadJobs`, the interval scheduling of the polling
effect (`schedulePolling`), and the batch-upload handler `handleUpload`.
Network effects are made explicit: a fetch result is a `FetchOutcome`
(transport exception, non-success response, or parsed body), and a tick
receives the environment's per-id responses as a function
`String → FetchOutcome`.
-/

namespace SAA

/-- Job status, as in the `JobInfo` interface of the component:
`"PENDING" | "PROCESSING" | "COMPLETED" | "FAILED"`. -/
inductive JobStatus where
  | PENDING
  | PROCESSING
  | COMPLETED
  | FAILED
deriving DecidableEq, Repr

/-- The `JobInfo` interface. The opaque `result` payload is modelled as an
uninterpreted string; optional fields are `Option`s. -/
structure JobInfo where
  job_id : String
  filename : String
  status : JobStatus
  ledger_name : Option String := none
  financial_year : Option String := none
  result : Option String := none
  error : Option String := none
  created_at : Option String := none
deriving DecidableEq, Repr

/-- Outcome of one `fetch` of a job-status URL: a thrown transport
exception, a response with `res.ok` false (any non-2xx code, including 404),
or a successful response whose body parses to a `JobInfo`. -/
inductive FetchOutcome where
  | transportError
  | notOk (code : Nat)
  | ok (body : JobInfo)
deriving DecidableEq, Repr

/-- Model of `pollJobStatus`: returns the parsed record when the response is ok and
`null` (here `none`) on a thrown exception or a non-success response. -/
def pollJobStatus : FetchOutcome → Option JobInfo
  | FetchOutcome.ok body => some body
  | FetchOutcome.notOk _ => none
  | FetchOutcome.transportError => none

/-- The terminal-status test used inside the polling loop:
`updated.status === "COMPLETED" || updated.status === "FAILED"`. -/
def isTerminal (s : JobStatus) : Bool :=
  s = JobStatus.COMPLETED || s = JobStatus.FAILED

/-- The body of one poll tick over the current `activeJobs` list, in list
order: for each job, query its id; on success classify into the
`newlyCompleted` bucket (terminal) or the `updatedJobs` list (non-terminal);
on a failed poll keep the previous record as-is in `updatedJobs`.
Returns `(updatedJobs, newlyCompleted)`. -/
def pollLoop (resp : String → FetchOutcome) : List JobInfo → List JobInfo × List JobInfo
  | [] => ([], [])
  | job :: rest =>
    let r := pollLoop resp rest
    match pollJobStatus (resp job.job_id) with
    | some updated =>
      if isTerminal updated.status then (r.1, updated :: r.2)
      else (updated :: r.1, r.2)
    | none => (job :: r.1, r.2)

/-- The reconciler's owned state: the `activeJobs` and `completedJobs`
arrays of the component. -/
structure ReconcilerState where
  activeJobs : List JobInfo
  completedJobs : List JobInfo
deriving DecidableEq, Repr

/-- One poll tick of the polling effect: run the loop over `activeJobs`,
prepend the tick's `newlyCompleted` bucket to `completedJobs` when it is
non-empty, and replace `activeJobs` with `updatedJobs`. -/
def tick (resp : String → FetchOutcome) (s : ReconcilerState) : ReconcilerState :=
  let r := pollLoop resp s.activeJobs
  { activeJobs := r.1
    completedJobs := if r.2.length > 0 then r.2 ++ s.completedJobs else s.completedJobs }

/-- Model of `loadJobs`: the initialization effect partitions the `listJobs` snapshot
by status into `activeJobs` (PENDING or PROCESSING) and `completedJobs`
(COMPLETED or FAILED). -/
def loadJobs (jobs : List JobInfo) : ReconcilerState :=
  { activeJobs :=
      jobs.filter (fun j => j.status = JobStatus.PENDING || j.status = JobStatus.PROCESSING)
    completedJobs :=
      jobs.filter (fun j => j.status = JobStatus.COMPLETED || j.status = JobStatus.FAILED) }

/-- The polling effect's scheduling decision: with an empty `activeJobs`
list it returns without installing an interval; otherwise it installs one
with a 3000 ms delay. `some d` is the delay of the installed interval. -/
def schedulePolling (activeJobs : List JobInfo) : Option Nat :=
  if activeJobs.length = 0 then none else some 3000

/-- Per-job contribution of a tick to the next `activeJobs` list: the
refreshed record when the poll succeeds with a non-terminal status, the
previous record when the poll fails, nothing when the job completes. -/
def updateOf (resp : String → FetchOutcome) (job : JobInfo) : Option JobInfo :=
  match pollJobStatus (resp job.job_id) with
  | some updated => if isTerminal updated.status then none else some updated
  | none => some job

/-- Per-job contribution of a tick to the `newlyCompleted` bucket: the
refreshed record exactly when the poll succeeds with a terminal status. -/
def completionOf (resp : String → FetchOutcome) (job : JobInfo) : Option JobInfo :=
  match pollJobStatus (resp job.job_id) with
  | some updated => if isTerminal updated.status then some updated else none
  | none => none

/-- A sequence of ticks, one environment-response function per tick. -/
def tickSeq (resps : List (String → FetchOutcome)) (s : ReconcilerState) : ReconcilerState :=
  match resps with
  | [] => s
  | r :: rest => tickSeq rest (tick r s)

/-- A job descriptor inside a successful upload response (`result.jobs`).
The handler reads only `job_id`, `filename` and `status` from it; any
server-side metadata fields are ignored. -/
structure UploadJobDesc where
  job_id : String
  filename : String
  status : JobStatus
  ledger_name : Option String := none
  financial_year : Option String := none
deriving DecidableEq, Repr

/-- Outcome of the upload `fetch`: a 2xx response with a list of job
descriptors, a non-2xx response with an optional `detail` field, or a
thrown transport exception. -/
inductive UploadOutcome where
  | ok (jobs : List UploadJobDesc)
  | httpError (detail : Option String)
  | networkError
deriving DecidableEq, Repr

/-- JavaScript `a || b` on the optional `detail` string: the fallback is
used when `detail` is absent or is the empty string (both falsy). -/
def jsDetailOr (detail : Option String) (fallback : String) : String :=
  match detail with
  | some d => if d = "" then fallback else d
  | none => fallback

/-- The record built for each returned descriptor in `handleUpload`:
`job_id`, `filename` and `status` from the response, `ledger_name` and
`financial_year` from the client's current form inputs. -/
def mkNewJob (ledgerName selectedFY : String) (j : UploadJobDesc) : JobInfo :=
  { job_id := j.job_id
    filename := j.filename
    status := j.status
    ledger_name := some ledgerName
    financial_year := some selectedFY }

/-- Observable result of one `handleUpload` call: the reconciler state
afterwards, the `error` and `success` messages, and whether the upload
`fetch` was issued at all. -/
structure UploadResult where
  state : ReconcilerState
  errorMsg : Option String
  successMsg : Option String
  networkCallMade : Bool
deriving DecidableEq, Repr

/-- Model of `handleUpload`: with zero files the request is rejected before any
network call; otherwise the upload is issued and, on success, the new
records are prepended to `activeJobs`; on a non-2xx response the `detail`
message (with JS-truthiness fallback) is surfaced; on a thrown exception a
generic network-error message is surfaced. -/
def handleUpload (files : List String) (ledgerName selectedFY : String)
    (outcome : UploadOutcome) (s : ReconcilerState) : UploadResult :=
  if files.length = 0 then
    { state := s
      errorMsg := some "Please select at least one file to upload."
      successMsg := none
      networkCallMade := false }
  else
    match outcome with
    | UploadOutcome.ok jobs =>
      { state := { s with activeJobs := jobs.map (mkNewJob ledgerName selectedFY) ++ s.activeJobs }
        errorMsg := none
        successMsg :=
          some ("Successfully queued " ++ toString files.length ++ " document(s) for AI analysis.")
        networkCallMade := true }
    | UploadOutcome.httpError detail =>
      { state := s
        errorMsg := some (jsDetailOr detail "Failed to upload documents.")
        successMsg := none
        networkCallMade := true }
    | UploadOutcome.networkError =>
      { state := s
        errorMsg := some "Network error: Could not upload documents."
        successMsg := none
        networkCallMade := true }

/-!
Concrete fixtures used by the witness and counterexample theorems below.
-/

def jobA : JobInfo := { job_id := "j1", filename := "a.pdf", status := JobStatus.PENDING }

def jobB : JobInfo := { job_id := "j2", filename := "b.pdf", status := JobStatus.PROCESSING }

def jobADone : JobInfo :=
  { job_id := "j1", filename := "a.pdf", status := JobStatus.COMPLETED
    result := some "amount:100" }

def jobBDone : JobInfo :=
  { job_id := "j2", filename := "b.pdf", status := JobStatus.FAILED
    error := some "parse failure" }

def jobCOld : JobInfo :=
  { job_id := "j9", filename := "c.pdf", status := JobStatus.FAILED, error := some "boom" }

def respFail : String → FetchOutcome := fun _ => FetchOutcome.transportError

def resp404 : String → FetchOutcome := fun _ => FetchOutcome.notOk 404

def respMixed : String → FetchOutcome := fun id =>
  if id = "j1" then FetchOutcome.ok jobADone else FetchOutcome.transportError

def respAllDone : String → FetchOutcome := fun id =>
  if id = "j1" then FetchOutcome.ok jobADone
  else if id = "j2" then FetchOutcome.ok jobBDone
  else FetchOutcome.transportError

def stateAB : ReconcilerState := { activeJobs := [jobA, jobB], completedJobs := [jobCOld] }

def stateTerm : ReconcilerState := { activeJobs := [jobADone], completedJobs := [jobCOld] }

def emptyState : ReconcilerState := { activeJobs := [], completedJobs := [] }

def descDone : UploadJobDesc :=
  { job_id := "j7", filename := "d.pdf", status := JobStatus.COMPLETED
    ledger_name := some "SERVER-LEDGER", financial_year := some "SERVER-FY" }

/-- Pointwise characterization of one tick's loop: `updatedJobs` and
`newlyCompleted` are per-job `filterMap`s over the active list. -/
theorem pollLoop_eq (resp : String → FetchOutcome) (l : List JobInfo) :
    pollLoop resp l = (l.filterMap (updateOf resp), l.filterMap (completionOf resp)) := by
  induction l with
  | nil => rfl
  | cons job rest ih =>
    simp only [pollLoop, ih, List.filterMap_cons, updateOf, completionOf]
    cases h : pollJobStatus (resp job.job_id) with
    | none => rfl
    | some updated => cases ht : isTerminal updated.status <;> simp [ht]

theorem tick_activeJobs (resp : String → FetchOutcome) (s : ReconcilerState) :
    (tick resp s).activeJobs = s.activeJobs.filterMap (updateOf resp) := by
  simp [tick, pollLoop_eq]

theorem tick_completedJobs (resp : String → FetchOutcome) (s : ReconcilerState) :
    (tick resp s).completedJobs =
      s.activeJobs.filterMap (completionOf resp) ++ s.completedJobs := by
  simp only [tick, pollLoop_eq]
  by_cases h : (s.activeJobs.filterMap (completionOf resp)).length > 0
  · simp [h]
  · have hnil : s.activeJobs.filterMap (completionOf resp) = [] :=
      List.length_eq_zero.mp (Nat.eq_zero_of_not_pos h)
    simp [h, hnil]

theorem updateOf_of_fail {resp : String → FetchOutcome} {j : JobInfo}
    (hfail : pollJobStatus (resp j.job_id) = none) :
    updateOf resp j = some j := by
  simp [updateOf, hfail]

theorem completionOf_of_fail {resp : String → FetchOutcome} {j : JobInfo}
    (hfail : pollJobStatus (resp j.job_id) = none) :
    completionOf resp j = none := by
  simp [completionOf, hfail]

theorem mem_tick_active_of_fail {resp : String → FetchOutcome} {s : ReconcilerState}
    {j : JobInfo} (hmem : j ∈ s.activeJobs)
    (hfail : pollJobStatus (resp j.job_id) = none) :
    j ∈ (tick resp s).activeJobs := by
  rw [tick_activeJobs]
  exact List.mem_filterMap.mpr ⟨j, hmem, updateOf_of_fail hfail⟩

theorem updateOf_id {resp : String → FetchOutcome}
    (hresp : ∀ id u, pollJobStatus (resp id) = some u → u.job_id = id)
    {j u : JobInfo} (h : updateOf resp j = some u) : u.job_id = j.job_id := by
  unfold updateOf at h
  cases hp : pollJobStatus (resp j.job_id) with
  | none =>
    rw [hp] at h
    simp at h
    subst h
    rfl
  | some w =>
    rw [hp] at h
    simp at h
    obtain ⟨ht, rfl⟩ := h
    exact hresp _ _ hp

theorem completionOf_id {resp : String → FetchOutcome}
    (hresp : ∀ id u, pollJobStatus (resp id) = some u → u.job_id = id)
    {j u : JobInfo} (h : completionOf resp j = some u) : u.job_id = j.job_id := by
  unfold completionOf at h
  cases hp : pollJobStatus (resp j.job_id) with
  | none => rw [hp] at h; simp at h
  | some w =>
    rw [hp] at h
    simp at h
    obtain ⟨ht, rfl⟩ := h
    exact hresp _ _ hp

theorem completionOf_terminal {resp : String → FetchOutcome} {j u : JobInfo}
    (h : completionOf resp j = some u) : isTerminal u.status = true := by
  unfold completionOf at h
  cases hp : pollJobStatus (resp j.job_id) with
  | none => rw [hp] at h; simp at h
  | some w =>
    rw [hp] at h
    simp at h
    obtain ⟨ht, rfl⟩ := h
    exact ht

theorem updateOf_congr {resp resp2 : String → FetchOutcome} {j : JobInfo}
    (h : resp2 j.job_id = resp j.job_id) : updateOf resp2 j = updateOf resp j := by
  simp [updateOf, h]

theorem completionOf_congr {resp resp2 : String → FetchOutcome} {j : JobInfo}
    (h : resp2 j.job_id = resp j.job_id) : completionOf resp2 j = completionOf resp j := by
  simp [completionOf, h]

theorem pollLoop_congr {resp resp2 : String → FetchOutcome} {l : List JobInfo}
    (h : ∀ j ∈ l, resp2 j.job_id = resp j.job_id) :
    pollLoop resp2 l = pollLoop resp l := by
  induction l with
  | nil => rfl
  | cons j rest ih =>
    have hj := h j (List.mem_cons_self _ _)
    have hr : ∀ k ∈ rest, resp2 k.job_id = resp k.job_id :=
      fun k hk => h k (List.mem_cons_of_mem _ hk)
    simp only [pollLoop, ih hr, hj]

theorem tick_congr {resp resp2 : String → FetchOutcome} {s : ReconcilerState}
    (h : ∀ j ∈ s.activeJobs, resp2 j.job_id = resp j.job_id) :
    tick resp2 s = tick resp s := by
  unfold tick
  rw [pollLoop_congr h]

theorem updateOf_or_completionOf (resp : String → FetchOutcome) (j : JobInfo) :
    (∃ u, updateOf resp j = some u ∧ completionOf resp j = none) ∨
    (∃ u, updateOf resp j = none ∧ completionOf resp j = some u) := by
  unfold updateOf completionOf
  cases hp : pollJobStatus (resp j.job_id) with
  | none => exact Or.inl ⟨j, rfl, rfl⟩
  | some w =>
    cases ht : isTerminal w.status with
    | false => exact Or.inl ⟨w, by simp [ht], by simp [ht]⟩
    | true => exact Or.inr ⟨w, by simp [ht], by simp [ht]⟩

theorem pollLoop_id_perm {resp : String → FetchOutcome}
    (hresp : ∀ id u, pollJobStatus (resp id) = some u → u.job_id = id)
    (l : List JobInfo) :
    ((l.filterMap (updateOf resp) ++ l.filterMap (completionOf resp)).map
        JobInfo.job_id).Perm (l.map JobInfo.job_id) := by
  induction l with
  | nil => simp
  | cons j rest ih =>
    simp only [List.map_append] at ih ⊢
    rcases updateOf_or_completionOf resp j with ⟨u, hu, hc⟩ | ⟨u, hu, hc⟩
    · have hid : u.job_id = j.job_id := updateOf_id hresp hu
      simp only [List.filterMap_cons, hu, hc, List.map_cons, List.cons_append]
      rw [hid]
      exact ih.cons _
    · have hid : u.job_id = j.job_id := completionOf_id hresp hc
      simp only [List.filterMap_cons, hu, hc, List.map_cons]
      refine List.perm_middle.trans ?_
      rw [hid]
      exact ih.cons _

theorem loadJobs_activeJobs (jobs : List JobInfo) :
    (loadJobs jobs).activeJobs =
      jobs.filter (fun j => j.status = JobStatus.PENDING || j.status = JobStatus.PROCESSING) :=
  rfl

theorem loadJobs_completedJobs (jobs : List JobInfo) :
    (loadJobs jobs).completedJobs =
      jobs.filter (fun j => j.status = JobStatus.COMPLETED || j.status = JobStatus.FAILED) :=
  rfl

theorem loadJobs_perm (jobs : List JobInfo) :
    ((loadJobs jobs).activeJobs ++ (loadJobs jobs).completedJobs).Perm jobs := by
  rw [loadJobs_activeJobs, loadJobs_completedJobs]
  have he : jobs.filter (fun j => j.status = JobStatus.COMPLETED || j.status = JobStatus.FAILED)
      = jobs.filter
          (fun j => !(j.status = JobStatus.PENDING || j.status = JobStatus.PROCESSING)) :=
    List.filter_congr (fun x _ => by cases x.status <;> rfl)
  rw [he]
  exact List.filter_append_perm _ jobs

theorem loadJobs_partition {jobs : List JobInfo} {j : JobInfo} (hj : j ∈ jobs) :
    (j ∈ (loadJobs jobs).activeJobs ∧ j ∉ (loadJobs jobs).completedJobs) ∨
    (j ∉ (loadJobs jobs).activeJobs ∧ j ∈ (loadJobs jobs).completedJobs) := by
  rw [loadJobs_activeJobs, loadJobs_completedJobs]
  cases hs : j.status <;> simp [List.mem_filter, hj, hs]

theorem tick_disjoint {resp : String → FetchOutcome}
    (hresp : ∀ id u, pollJobStatus (resp id) = some u → u.job_id = id)
    {s : ReconcilerState}
    (hdisj : ∀ j ∈ s.activeJobs, ∀ k ∈ s.completedJobs, j.job_id ≠ k.job_id) :
    ∀ j ∈ (tick resp s).activeJobs, ∀ k ∈ (tick resp s).completedJobs,
      j.job_id ≠ k.job_id := by
  intro j hj k hk
  rw [tick_activeJobs] at hj
  rw [tick_completedJobs] at hk
  obtain ⟨a, ha, hua⟩ := List.mem_filterMap.mp hj
  have hja : j.job_id = a.job_id := updateOf_id hresp hua
  rcases List.mem_append.mp hk with hkc | hkold
  · obtain ⟨b, hb, hcb⟩ := List.mem_filterMap.mp hkc
    have hkb : k.job_id = b.job_id := completionOf_id hresp hcb
    intro he
    have hab : a.job_id = b.job_id := by rw [← hja, he, hkb]
    unfold completionOf at hcb
    unfold updateOf at hua
    rw [hab] at hua
    cases hp : pollJobStatus (resp b.job_id) with
    | none => rw [hp] at hcb; simp at hcb
    | some w =>
      rw [hp] at hcb hua
      cases ht : isTerminal w.status with
      | false => simp [ht] at hcb
      | true => simp [ht] at hua
  · rw [hja]
    exact hdisj a ha k hkold

theorem mem_tickSeq_active_of_fail {j : JobInfo} :
    ∀ (resps : List (String → FetchOutcome)) (s : ReconcilerState),
      j ∈ s.activeJobs → (∀ r ∈ resps, pollJobStatus (r j.job_id) = none) →
      j ∈ (tickSeq resps s).activeJobs := by
  intro resps
  induction resps with
  | nil => intro s hmem _; exact hmem
  | cons r rest ih =>
    intro s hmem hfail
    simp only [tickSeq]
    exact ih _ (mem_tick_active_of_fail hmem (hfail r (List.mem_cons_self _ _)))
      (fun r2 h2 => hfail r2 (List.mem_cons_of_mem _ h2))

/-- Claim C1: if the status query for an active job fails, that job's record
is carried into the next active set unchanged by value; outcomes are computed
per job from that job's own response only, so one job's poll failure never
changes the outcome of any other job in the same tick. -/
theorem poll_failure_isolation
    (resp : String → FetchOutcome) (s : ReconcilerState) (j : JobInfo)
    (hmem : j ∈ s.activeJobs)
    (hfail : pollJobStatus (resp j.job_id) = none) :
    updateOf resp j = some j ∧ completionOf resp j = none ∧
    j ∈ (tick resp s).activeJobs ∧
    (tick resp s).activeJobs = s.activeJobs.filterMap (updateOf resp) ∧
    (tick resp s).completedJobs =
      s.activeJobs.filterMap (completionOf resp) ++ s.completedJobs ∧
    (∀ (resp2 : String → FetchOutcome) (k : JobInfo), resp2 k.job_id = resp k.job_id →
      updateOf resp2 k = updateOf resp k ∧ completionOf resp2 k = completionOf resp k) :=
  ⟨updateOf_of_fail hfail, completionOf_of_fail hfail,
    mem_tick_active_of_fail hmem hfail, tick_activeJobs resp s, tick_completedJobs resp s,
    fun _ _ h => ⟨updateOf_congr h, completionOf_congr h⟩⟩

theorem poll_failure_isolation_witness :
    updateOf respFail jobA = some jobA ∧ completionOf respFail jobA = none ∧
    jobA ∈ (tick respFail stateAB).activeJobs ∧
    (tick respFail stateAB).activeJobs = stateAB.activeJobs.filterMap (updateOf respFail) ∧
    (tick respFail stateAB).completedJobs =
      stateAB.activeJobs.filterMap (completionOf respFail) ++ stateAB.completedJobs ∧
    (∀ (resp2 : String → FetchOutcome) (k : JobInfo),
      resp2 k.job_id = respFail k.job_id →
      updateOf resp2 k = updateOf respFail k ∧
      completionOf resp2 k = completionOf respFail k) :=
  poll_failure_isolation respFail stateAB jobA (by simp [stateAB]) rfl

/-- Claim C2: a successfully refreshed record with terminal status goes into
the tick's newly-completed bucket (and hence into the completed list) and
contributes nothing to the next active set; with non-terminal status it is
the job's replacement in the next active set. -/
theorem poll_success_classified
    (resp : String → FetchOutcome) (s : ReconcilerState) (j u : JobInfo)
    (hmem : j ∈ s.activeJobs)
    (hok : pollJobStatus (resp j.job_id) = some u) :
    (isTerminal u.status = true →
      completionOf resp j = some u ∧ updateOf resp j = none ∧
      u ∈ (pollLoop resp s.activeJobs).2 ∧ u ∈ (tick resp s).completedJobs) ∧
    (isTerminal u.status = false →
      updateOf resp j = some u ∧ completionOf resp j = none ∧
      u ∈ (tick resp s).activeJobs) := by
  constructor
  · intro ht
    have hc : completionOf resp j = some u := by simp [completionOf, hok, ht]
    have hu : updateOf resp j = none := by simp [updateOf, hok, ht]
    refine ⟨hc, hu, ?_, ?_⟩
    · simp only [pollLoop_eq]
      exact List.mem_filterMap.mpr ⟨j, hmem, hc⟩
    · rw [tick_completedJobs]
      exact List.mem_append.mpr (Or.inl (List.mem_filterMap.mpr ⟨j, hmem, hc⟩))
  · intro ht
    have hu : updateOf resp j = some u := by simp [updateOf, hok, ht]
    have hc : completionOf resp j = none := by simp [completionOf, hok, ht]
    refine ⟨hu, hc, ?_⟩
    rw [tick_activeJobs]
    exact List.mem_filterMap.mpr ⟨j, hmem, hu⟩

theorem poll_success_classified_witness :
    (isTerminal jobADone.status = true →
      completionOf respMixed jobA = some jobADone ∧ updateOf respMixed jobA = none ∧
      jobADone ∈ (pollLoop respMixed stateAB.activeJobs).2 ∧
      jobADone ∈ (tick respMixed stateAB).completedJobs) ∧
    (isTerminal jobADone.status = false →
      updateOf respMixed jobA = some jobADone ∧ completionOf respMixed jobA = none ∧
      jobADone ∈ (tick respMixed stateAB).activeJobs) :=
  poll_success_classified respMixed stateAB jobA jobADone (by simp [stateAB]) rfl

/-- Claim C3: the tick's newly completed jobs are prepended as a block to
the front of the completed list in discovery order, with the prior completed
list as an unchanged suffix; a job discovered before another in the tick's
query order appears before it afterwards. -/
theorem completion_ordering
    (resp : String → FetchOutcome) (s : ReconcilerState)
    (l1 l2 l3 : List JobInfo) (a b ca cb : JobInfo)
    (hact : s.activeJobs = l1 ++ a :: (l2 ++ b :: l3))
    (ha : completionOf resp a = some ca)
    (hb : completionOf resp b = some cb) :
    (tick resp s).completedJobs =
      l1.filterMap (completionOf resp) ++
        ca :: (l2.filterMap (completionOf resp) ++
          cb :: (l3.filterMap (completionOf resp) ++ s.completedJobs)) := by
  rw [tick_completedJobs, hact]
  simp [List.filterMap_append, List.filterMap_cons, ha, hb]

theorem completion_ordering_witness :
    (tick respAllDone stateAB).completedJobs =
      List.filterMap (completionOf respAllDone) [] ++
        jobADone :: (List.filterMap (completionOf respAllDone) [] ++
          jobBDone :: (List.filterMap (completionOf respAllDone) [] ++
            stateAB.completedJobs)) :=
  completion_ordering respAllDone stateAB [] [] [] jobA jobB jobADone jobBDone rfl rfl rfl

/-- Claim C4: initialization partitions the job snapshot strictly by status
into active and completed — every job lands in exactly one of the two — and
a poll tick preserves the partition: the multiset of tracked job ids is
unchanged and active and completed stay id-disjoint, given that the server
answers a status query with a record bearing the queried id. -/
theorem partition_exhaustive
    (jobs : List JobInfo) (resp : String → FetchOutcome) (s : ReconcilerState)
    (hresp : ∀ id u, pollJobStatus (resp id) = some u → u.job_id = id)
    (hdisj : ∀ j ∈ s.activeJobs, ∀ k ∈ s.completedJobs, j.job_id ≠ k.job_id) :
    ((loadJobs jobs).activeJobs ++ (loadJobs jobs).completedJobs).Perm jobs ∧
    (∀ j ∈ jobs,
      (j ∈ (loadJobs jobs).activeJobs ∧ j ∉ (loadJobs jobs).completedJobs) ∨
      (j ∉ (loadJobs jobs).activeJobs ∧ j ∈ (loadJobs jobs).completedJobs)) ∧
    (((tick resp s).activeJobs ++ (tick resp s).completedJobs).map JobInfo.job_id).Perm
      ((s.activeJobs ++ s.completedJobs).map JobInfo.job_id) ∧
    (∀ j ∈ (tick resp s).activeJobs, ∀ k ∈ (tick resp s).completedJobs,
      j.job_id ≠ k.job_id) := by
  refine ⟨loadJobs_perm jobs, fun j hj => loadJobs_partition hj, ?_,
    tick_disjoint hresp hdisj⟩
  rw [tick_activeJobs, tick_completedJobs]
  simp only [List.map_append]
  have h := pollLoop_id_perm hresp s.activeJobs
  simp only [List.map_append] at h
  have h2 := h.append_right (s.completedJobs.map JobInfo.job_id)
  rw [List.append_assoc] at h2
  exact h2

theorem partition_exhaustive_witness :
    ((loadJobs [jobA, jobCOld]).activeJobs ++
        (loadJobs [jobA, jobCOld]).completedJobs).Perm [jobA, jobCOld] ∧
    (∀ j ∈ [jobA, jobCOld],
      (j ∈ (loadJobs [jobA, jobCOld]).activeJobs ∧
        j ∉ (loadJobs [jobA, jobCOld]).completedJobs) ∨
      (j ∉ (loadJobs [jobA, jobCOld]).activeJobs ∧
        j ∈ (loadJobs [jobA, jobCOld]).completedJobs)) ∧
    (((tick respMixed stateAB).activeJobs ++
        (tick respMixed stateAB).completedJobs).map JobInfo.job_id).Perm
      ((stateAB.activeJobs ++ stateAB.completedJobs).map JobInfo.job_id) ∧
    (∀ j ∈ (tick respMixed stateAB).activeJobs,
      ∀ k ∈ (tick respMixed stateAB).completedJobs, j.job_id ≠ k.job_id) :=
  partition_exhaustive [jobA, jobCOld] respMixed stateAB
    (by
      intro id u h
      unfold respMixed at h
      by_cases hid : id = "j1"
      · rw [if_pos hid] at h
        cases h
        rw [hid]
        rfl
      · rw [if_neg hid] at h
        cases h)
    (by decide)

/-- Claim C5: the completed list is only ever extended at the front — the
prior completed list is an untouched suffix and every record already in it
survives the tick; everything entering it is terminal; a terminal record
held in the active list is passed through by value (either carried or moved
to completed unchanged) whenever the store never rewrites terminal jobs; and
the tick consults the environment only at the ids of active records, so
completed records are never re-queried. -/
theorem terminal_records_immutable
    (resp : String → FetchOutcome) (s : ReconcilerState)
    (hmono : ∀ j ∈ s.activeJobs, isTerminal j.status = true →
      pollJobStatus (resp j.job_id) = none ∨ pollJobStatus (resp j.job_id) = some j) :
    (tick resp s).completedJobs =
      s.activeJobs.filterMap (completionOf resp) ++ s.completedJobs ∧
    (∀ k ∈ s.completedJobs, k ∈ (tick resp s).completedJobs) ∧
    (∀ k ∈ s.activeJobs.filterMap (completionOf resp), isTerminal k.status = true) ∧
    (∀ j ∈ s.activeJobs, isTerminal j.status = true →
      (updateOf resp j = some j ∧ completionOf resp j = none) ∨
      (updateOf resp j = none ∧ completionOf resp j = some j)) ∧
    (∀ resp2 : String → FetchOutcome,
      (∀ j ∈ s.activeJobs, resp2 j.job_id = resp j.job_id) → tick resp2 s = tick resp s) := by
  refine ⟨tick_completedJobs resp s, ?_, ?_, ?_, fun resp2 h => tick_congr h⟩
  · intro k hk
    rw [tick_completedJobs]
    exact List.mem_append.mpr (Or.inr hk)
  · intro k hk
    obtain ⟨a, _, hca⟩ := List.mem_filterMap.mp hk
    exact completionOf_terminal hca
  · intro j hj ht
    rcases hmono j hj ht with hfail | hok
    · exact Or.inl ⟨updateOf_of_fail hfail, completionOf_of_fail hfail⟩
    · exact Or.inr ⟨by simp [updateOf, hok, ht], by simp [completionOf, hok, ht]⟩

theorem terminal_records_immutable_witness :
    (tick respFail stateTerm).completedJobs =
      stateTerm.activeJobs.filterMap (completionOf respFail) ++ stateTerm.completedJobs ∧
    (∀ k ∈ stateTerm.completedJobs, k ∈ (tick respFail stateTerm).completedJobs) ∧
    (∀ k ∈ stateTerm.activeJobs.filterMap (completionOf respFail),
      isTerminal k.status = true) ∧
    (∀ j ∈ stateTerm.activeJobs, isTerminal j.status = true →
      (updateOf respFail j = some j ∧ completionOf respFail j = none) ∨
      (updateOf respFail j = none ∧ completionOf respFail j = some j)) ∧
    (∀ resp2 : String → FetchOutcome,
      (∀ j ∈ stateTerm.activeJobs, resp2 j.job_id = respFail j.job_id) →
      tick resp2 stateTerm = tick respFail stateTerm) :=
  terminal_records_immutable respFail stateTerm (by decide)

/-- Claim C6: the polling effect installs an interval exactly when the
active list is non-empty — so ticking stops once active drains and resumes
when jobs are added — and the installed interval's delay is 3000 ms; a tick
over an empty active list leaves the state unchanged. -/
theorem polling_interval_schedule :
    (∀ l : List JobInfo, schedulePolling l = none ↔ l = []) ∧
    (∀ l : List JobInfo, l ≠ [] → schedulePolling l = some 3000) ∧
    (∀ (resp : String → FetchOutcome) (s : ReconcilerState),
      s.activeJobs = [] → tick resp s = s) := by
  refine ⟨?_, ?_, ?_⟩
  · intro l
    by_cases h : l = [] <;> simp [schedulePolling, h, List.length_eq_zero]
  · intro l h
    simp [schedulePolling, List.length_eq_zero, h]
  · intro resp s h
    cases s with
    | mk act comp =>
      have hact : act = [] := h
      subst hact
      rfl

theorem polling_interval_schedule_witness :
    schedulePolling ([] : List JobInfo) = none ∧
    schedulePolling [jobA] = some 3000 ∧
    tick respFail { activeJobs := [], completedJobs := [jobCOld] } =
      { activeJobs := [], completedJobs := [jobCOld] } :=
  ⟨(polling_interval_schedule.1 []).mpr rfl,
    polling_interval_schedule.2.1 [jobA] (by simp),
    polling_interval_schedule.2.2 respFail ⟨[], [jobCOld]⟩ rfl⟩

/-- Claim C7: an upload attempt with zero files is rejected before any
network call: the state is unchanged, no fetch is issued (for every possible
network outcome the result is the same), and the validation message is set. -/
theorem zero_files_rejected
    (ledgerName selectedFY : String) (outcome : UploadOutcome) (s : ReconcilerState) :
    handleUpload [] ledgerName selectedFY outcome s =
      { state := s
        errorMsg := some "Please select at least one file to upload."
        successMsg := none
        networkCallMade := false } := rfl

/-- Counterexample to claim C8 as stated: a non-2xx response whose `detail`
field is present but equal to the empty string is not surfaced verbatim —
the JS-truthiness fallback replaces it with the generic message. -/
theorem upload_empty_detail_counterexample :
    (handleUpload ["a.pdf"] "" "" (UploadOutcome.httpError (some "")) emptyState).errorMsg =
      some "Failed to upload documents." ∧
    (handleUpload ["a.pdf"] "" "" (UploadOutcome.httpError (some "")) emptyState).errorMsg ≠
      some "" := by
  constructor <;> decide

/-- Claim C8 (amended): a non-2xx upload response surfaces the
server-provided `detail` verbatim when it is a non-empty string, and falls
back to the generic message when `detail` is absent or empty; a transport
failure surfaces the generic network-error message; in every error case the
reconciler state is unchanged, so no jobs are added to the active set. -/
theorem upload_error_surfacing
    (files : List String) (lg fy : String) (s : ReconcilerState)
    (hfiles : files.length ≠ 0) :
    (∀ d : String, d ≠ "" →
      handleUpload files lg fy (UploadOutcome.httpError (some d)) s =
        { state := s, errorMsg := some d, successMsg := none, networkCallMade := true }) ∧
    (handleUpload files lg fy (UploadOutcome.httpError (some "")) s =
      { state := s, errorMsg := some "Failed to upload documents."
        successMsg := none, networkCallMade := true }) ∧
    (handleUpload files lg fy (UploadOutcome.httpError none) s =
      { state := s, errorMsg := some "Failed to upload documents."
        successMsg := none, networkCallMade := true }) ∧
    (handleUpload files lg fy UploadOutcome.networkError s =
      { state := s, errorMsg := some "Network error: Could not upload documents."
        successMsg := none, networkCallMade := true }) := by
  refine ⟨?_, ?_, ?_, ?_⟩
  · intro d hd
    simp [handleUpload, hfiles, jsDetailOr, hd]
  · simp [handleUpload, hfiles, jsDetailOr]
  · simp [handleUpload, hfiles, jsDetailOr]
  · simp [handleUpload, hfiles]

theorem upload_error_surfacing_witness :
    (∀ d : String, d ≠ "" →
      handleUpload ["a.pdf"] "L" "F" (UploadOutcome.httpError (some d)) emptyState =
        { state := emptyState, errorMsg := some d
          successMsg := none, networkCallMade := true }) ∧
    (handleUpload ["a.pdf"] "L" "F" (UploadOutcome.httpError (some "")) emptyState =
      { state := emptyState, errorMsg := some "Failed to upload documents."
        successMsg := none, networkCallMade := true }) ∧
    (handleUpload ["a.pdf"] "L" "F" (UploadOutcome.httpError none) emptyState =
      { state := emptyState, errorMsg := some "Failed to upload documents."
        successMsg := none, networkCallMade := true }) ∧
    (handleUpload ["a.pdf"] "L" "F" UploadOutcome.networkError emptyState =
      { state := emptyState, errorMsg := some "Network error: Could not upload documents."
        successMsg := none, networkCallMade := true }) :=
  upload_error_surfacing ["a.pdf"] "L" "F" emptyState (by decide)

/-- Claim C9: the single-job poll is total with respect to failures — a
thrown transport exception and any non-success response (including 404)
both yield `none` — and a tick treats `none` by carrying the previous
record forward unchanged, so a job whose id the server keeps rejecting
stays in the active set through any sequence of such ticks. -/
theorem poll_failure_totality
    (code : Nat) (resps : List (String → FetchOutcome)) (s : ReconcilerState) (j : JobInfo)
    (hmem : j ∈ s.activeJobs)
    (hfail : ∀ r ∈ resps, pollJobStatus (r j.job_id) = none) :
    pollJobStatus (FetchOutcome.notOk code) = none ∧
    pollJobStatus FetchOutcome.transportError = none ∧
    (∀ r ∈ resps, updateOf r j = some j ∧ completionOf r j = none) ∧
    j ∈ (tickSeq resps s).activeJobs :=
  ⟨rfl, rfl,
    fun r hr => ⟨updateOf_of_fail (hfail r hr), completionOf_of_fail (hfail r hr)⟩,
    mem_tickSeq_active_of_fail resps s hmem hfail⟩

theorem poll_failure_totality_witness :
    pollJobStatus (FetchOutcome.notOk 404) = none ∧
    pollJobStatus FetchOutcome.transportError = none ∧
    (∀ r ∈ [resp404, respFail], updateOf r jobA = some jobA ∧
      completionOf r jobA = none) ∧
    jobA ∈ (tickSeq [resp404, respFail] stateAB).activeJobs :=
  poll_failure_totality 404 [resp404, respFail] stateAB jobA (by simp [stateAB])
    (by
      intro r hr
      simp only [List.mem_cons, List.not_mem_nil, or_false] at hr
      rcases hr with rfl | rfl <;> rfl)

/-- Claim C10: a successful upload prepends one record per returned
descriptor, in response order, to the front of the active list — regardless
of the status each descriptor reports, so even terminal descriptors land in
active while completed is untouched — and each new record takes its ledger
name and financial year from the client's form inputs, ignoring any
server-side values. -/
theorem upload_success_prepends
    (files : List String) (lg fy : String) (descs : List UploadJobDesc)
    (s : ReconcilerState) (hfiles : files.length ≠ 0) :
    (handleUpload files lg fy (UploadOutcome.ok descs) s).state.activeJobs =
      descs.map (mkNewJob lg fy) ++ s.activeJobs ∧
    (handleUpload files lg fy (UploadOutcome.ok descs) s).state.completedJobs =
      s.completedJobs ∧
    (handleUpload files lg fy (UploadOutcome.ok descs) s).errorMsg = none ∧
    (handleUpload files lg fy (UploadOutcome.ok descs) s).successMsg =
      some ("Successfully queued " ++ toString files.length ++
        " document(s) for AI analysis.") ∧
    (∀ d : UploadJobDesc,
      (mkNewJob lg fy d).job_id = d.job_id ∧
      (mkNewJob lg fy d).filename = d.filename ∧
      (mkNewJob lg fy d).status = d.status ∧
      (mkNewJob lg fy d).ledger_name = some lg ∧
      (mkNewJob lg fy d).financial_year = some fy) := by
  refine ⟨?_, ?_, ?_, ?_, fun d => ⟨rfl, rfl, rfl, rfl, rfl⟩⟩ <;>
    simp [handleUpload, hfiles]

theorem upload_success_prepends_witness :
    (handleUpload ["d.pdf"] "ClientLedger" "2023-24"
        (UploadOutcome.ok [descDone]) stateAB).state.activeJobs =
      [descDone].map (mkNewJob "ClientLedger" "2023-24") ++ stateAB.activeJobs ∧
    (handleUpload ["d.pdf"] "ClientLedger" "2023-24"
        (UploadOutcome.ok [descDone]) stateAB).state.completedJobs =
      stateAB.completedJobs ∧
    (handleUpload ["d.pdf"] "ClientLedger" "2023-24"
        (UploadOutcome.ok [descDone]) stateAB).errorMsg = none ∧
    (handleUpload ["d.pdf"] "ClientLedger" "2023-24"
        (UploadOutcome.ok [descDone]) stateAB).successMsg =
      some ("Successfully queued " ++ toString (["d.pdf"] : List String).length ++
        " document(s) for AI analysis.") ∧
    (∀ d : UploadJobDesc,
      (mkNewJob "ClientLedger" "2023-24" d).job_id = d.job_id ∧
      (mkNewJob "ClientLedger" "2023-24" d).filename = d.filename ∧
      (mkNewJob "ClientLedger" "2023-24" d).status = d.status ∧
      (mkNewJob "ClientLedger" "2023-24" d).ledger_name = some "ClientLedger" ∧
      (mkNewJob "ClientLedger" "2023-24" d).financial_year = some "2023-24") :=
  upload_success_prepends ["d.pdf"] "ClientLedger" "2023-24" [descDone] stateAB (by decide)

end SAA
